import Mathlib

/-
Verification of the source-code analysis core of i18n-status (rust/src/scan.rs and
rust/src/hardcoded.rs): constant propagation, translation-scope collection, translation-call
extraction, the hardcoded-text detector, and the translation-context point query.

The syntax tree is modelled as a closed sum type with one variant per syntactic form the
visitors actually branch on, plus catch-all variants mirroring the sources catch-all match
arms.  Statement and expression forms that every visitor either ignores or merely traverses
and that no claim exercises (switch, loops, try, seq, tagged templates, yield, unary) are
subsumed by the catch-all variants; this restricts the modelled input fragment, it does not
change any modelled behaviour.  Source spans are carried in the units that span_to_loc
produces: 0-indexed lines and display columns, the lookup through the external swc
SourceMap being abstracted away.  The external swc parser is abstracted as an oracle from
(dialect, source text) to either a module or a diagnostic message; parse_module wraps it
exactly as the Rust code wraps the swc parser result.
-/

namespace I18n

/-- A source span in 0-indexed line / display column units, as produced by span_to_loc
from the external SourceMap. -/
structure Span where
  startLine : Nat
  startCol : Nat
  endLine : Nat
  endCol : Nat
deriving Repr, DecidableEq

/-- Line range filter (inclusive, 0-indexed), mirroring struct Range in scan.rs. -/
structure Range where
  start_line : Nat
  end_line : Nat
deriving Repr, DecidableEq

/-- Largest u32 value; the module-level scope in collect_scopes_precise ends here. -/
def U32_MAX : Nat := 4294967295

/-- The constant table built by the ConstCollector.  The Rust code uses a HashMap with
insert-overwrite and lookup by key; an association list with prepend-insert and
first-match lookup has the same observable get behaviour. -/
abbrev CTable := List (String × String)

def insertConst (t : CTable) (k v : String) : CTable := (k, v) :: t

def lookupConst (t : CTable) (k : String) : Option String :=
  (t.find? (fun p => p.1 == k)).map (fun p => p.2)

/-- Property name in an object pattern (swc PropName); only identifier keys are inspected. -/
inductive PropKeyName where
  | identKey (name : String)
  | otherKey
deriving Repr, DecidableEq

mutual
/-- Binding patterns (swc Pat), restricted to the shapes detect_t_func_name inspects. -/
inductive Pat where
  | identP (name : String)
  | objectP (props : PatPropList)
  | arrayP (elems : OptPatList)
  | unhandledPat

inductive PatProp where
  | assignProp (key : String)
  | keyValueProp (key : PropKeyName) (value : Pat)
  | restProp

inductive PatPropList where
  | nil
  | cons (head : PatProp) (tail : PatPropList)

inductive OptPat where
  | noneP
  | someP (p : Pat)

inductive OptPatList where
  | nil
  | cons (head : OptPat) (tail : OptPatList)
end

/-- JSX element/object names (swc JSXElementName / JSXObject). -/
inductive JSXObj where
  | identObj (name : String)
  | memberObj (obj : JSXObj) (prop : String)

inductive JSXName where
  | identName (name : String)
  | memberName (obj : JSXObj) (prop : String)
  | namespacedName (nsPart : String) (name : String)

mutual
/-- Expressions, one variant per syntactic form the visitors branch on. -/
inductive Expr where
  | litStr (value : String) (span : Span)
  | tpl (quasis : List String) (exprs : ExprList) (span : Span)
  | bin (isAdd : Bool) (left : Expr) (right : Expr) (span : Span)
  | identE (name : String) (span : Span)
  | paren (inner : Expr) (span : Span)
  | callE (callee : Callee) (args : ExprList) (span : Span)
  | member (obj : Expr) (prop : MemberProp) (span : Span)
  | arrow (body : ArrowBody) (span : Span)
  | fnExpr (body : StmtList) (bodySpan : Span) (span : Span)
  | awaitE (arg : Expr) (span : Span)
  | condE (test : Expr) (cons : Expr) (alt : Expr) (span : Span)
  | assign (right : Expr) (span : Span)
  | arrayE (elems : ExprList) (span : Span)
  | objectE (props : PropList) (span : Span)
  | tsAs (inner : Expr) (span : Span)
  | tsSatisfies (inner : Expr) (span : Span)
  | tsNonNull (inner : Expr) (span : Span)
  | jsxElement (el : JSXElt) (span : Span)
  | jsxFragment (children : JSXChildList) (span : Span)
  | unhandledE (span : Span)

inductive Callee where
  | calleeExpr (e : Expr)
  | calleeOther

inductive MemberProp where
  | identProp (name : String)
  | computedProp (e : Expr)

inductive ArrowBody where
  | blockBody (stmts : StmtList) (blockSpan : Span)
  | exprBody (e : Expr)

inductive PropEntry where
  | keyValue (value : Expr)
  | spread (e : Expr)

inductive ExprList where
  | nil
  | cons (head : Expr) (tail : ExprList)

inductive PropList where
  | nil
  | cons (head : PropEntry) (tail : PropList)

inductive OptExpr where
  | noneE
  | someE (e : Expr)

inductive Stmt where
  | declS (d : Decl)
  | exprStmt (e : Expr)
  | retS (arg : OptExpr)
  | blockS (stmts : StmtList)
  | ifS (test : Expr) (cons : Stmt) (alt : OptStmt)
  | unhandledStmt

inductive OptStmt where
  | noneS
  | someS (s : Stmt)

inductive StmtList where
  | nil
  | cons (head : Stmt) (tail : StmtList)

inductive Decl where
  | varD (isConst : Bool) (decls : DeclaratorList)
  | fnD (body : StmtList) (bodySpan : Span)
  | unhandledDecl

inductive Declarator where
  | mk (name : Pat) (init : OptExpr)

inductive DeclaratorList where
  | nil
  | cons (head : Declarator) (tail : DeclaratorList)

inductive JSXElt where
  | mk (name : JSXName) (attrs : AttrList) (children : JSXChildList)

/-- A JSX attribute is modelled by the only part the visitors read: the contained
expression when its value is an expression container, nothing otherwise. -/
inductive AttrList where
  | nil
  | cons (head : OptExpr) (tail : AttrList)

inductive JSXChild where
  | jsxText (value : String) (span : Span)
  | exprContainer (e : OptExpr) (span : Span)
  | childElement (el : JSXElt)
  | childFragment (children : JSXChildList)
  | unhandledChild

inductive JSXChildList where
  | nil
  | cons (head : JSXChild) (tail : JSXChildList)
end

/-- Module items; export declarations mirror the handled ModuleDecl arms. -/
inductive ModuleItem where
  | stmtItem (s : Stmt)
  | exportDecl (d : Decl)
  | exportDefaultExpr (e : Expr)
  | exportDefaultFn (body : StmtList) (bodySpan : Span)
  | otherModuleItem

abbrev Module := List ModuleItem

/-- The span carried by an expression node (swc Spanned::span). -/
def Expr.span : Expr → Span
  | .litStr _ sp => sp
  | .tpl _ _ sp => sp
  | .bin _ _ _ sp => sp
  | .identE _ sp => sp
  | .paren _ sp => sp
  | .callE _ _ sp => sp
  | .member _ _ sp => sp
  | .arrow _ sp => sp
  | .fnExpr _ _ sp => sp
  | .awaitE _ sp => sp
  | .condE _ _ _ sp => sp
  | .assign _ sp => sp
  | .arrayE _ sp => sp
  | .objectE _ sp => sp
  | .tsAs _ sp => sp
  | .tsSatisfies _ sp => sp
  | .tsNonNull _ sp => sp
  | .jsxElement _ sp => sp
  | .jsxFragment _ sp => sp
  | .unhandledE sp => sp

/-- span_to_loc in scan.rs: 0-indexed start line, start display column, end display column. -/
def spanToLoc3 (sp : Span) : Nat × Nat × Nat := (sp.startLine, sp.startCol, sp.endCol)

/-- span_to_loc in hardcoded.rs: start line/col and end line/col. -/
def spanToLoc4 (sp : Span) : Nat × Nat × Nat × Nat :=
  (sp.startLine, sp.startCol, sp.endLine, sp.endCol)

def ExprList.isNil : ExprList → Bool
  | .nil => true
  | .cons _ _ => false

def ExprList.head? : ExprList → Option Expr
  | .nil => none
  | .cons e _ => some e

/-- eval_string_expr in scan.rs: string literal, interpolation-free template (quasis
concatenated), binary + of evaluable operands, identifier resolved through the table,
parenthesized expression; anything else is unresolvable. -/
def eval_string_expr (consts : CTable) : Expr → Option String
  | .litStr v _ => some v
  | .tpl quasis exprs _ =>
    if exprs.isNil then some (String.join quasis) else none
  | .bin isAdd l r _ =>
    if isAdd then
      match eval_string_expr consts l, eval_string_expr consts r with
      | some a, some b => some (a ++ b)
      | _, _ => none
    else none
  | .identE name _ => lookupConst consts name
  | .paren inner _ => eval_string_expr consts inner
  | _ => none

/-- is_translation_hook in scan.rs. -/
def is_translation_hook (name : String) : Bool :=
  name == "useTranslation" || name == "useTranslations" || name == "getTranslations"

/-- get_callee_name in scan.rs: only a bare identifier callee has a name. -/
def get_callee_name : Callee → Option String
  | .calleeExpr (.identE name _) => some name
  | _ => none

/-- get_first_string_arg in scan.rs. -/
def get_first_string_arg (args : ExprList) (consts : CTable) : Option String :=
  (args.head?).bind (fun e => eval_string_expr consts e)

/-- extract_hook_call in scan.rs: unwrap await/paren/ts casts down to a call. -/
def extract_hook_call : Expr → Option (Callee × ExprList × Span)
  | .callE callee args sp => some (callee, args, sp)
  | .awaitE arg _ => extract_hook_call arg
  | .paren inner _ => extract_hook_call inner
  | .tsAs inner _ => extract_hook_call inner
  | .tsSatisfies inner _ => extract_hook_call inner
  | .tsNonNull inner _ => extract_hook_call inner
  | _ => none

/-- First loop of the object-pattern branch of detect_t_func_name. -/
def findTPropFirstPass : PatPropList → Option String
  | .nil => none
  | .cons p rest =>
    match p with
    | .assignProp key => if key == "t" then some "t" else findTPropFirstPass rest
    | .keyValueProp (.identKey key) value =>
      if key == "t" then
        match value with
        | .identP valName => some valName
        | _ => findTPropFirstPass rest
      else findTPropFirstPass rest
    | _ => findTPropFirstPass rest

/-- Second loop of the object-pattern branch of detect_t_func_name (only Assign props);
in the source this pass is unreachable when the first pass found nothing, but it is
kept to mirror the code. -/
def findTPropAssignPass : PatPropList → Option String
  | .nil => none
  | .cons p rest =>
    match p with
    | .assignProp key => if key == "t" then some "t" else findTPropAssignPass rest
    | _ => findTPropAssignPass rest

/-- detect_t_func_name in scan.rs: the bound alias of the translation function in a
variable declarator binding pattern. -/
def detect_t_func_name : Pat → Option String
  | .identP name => some name
  | .objectP props =>
    match findTPropFirstPass props with
    | some r => some r
    | none => findTPropAssignPass props
  | .arrayP elems =>
    match elems with
    | .cons (.someP (.identP name)) _ => some name
    | _ => none
  | .unhandledPat => none

/-- The first loop of ConstCollector::collect_var_decl: insert every evaluable const
single-name binding into the table being built. -/
def ccInsertPass (ds : DeclaratorList) (t : CTable) : CTable :=
  match ds with
  | .nil => t
  | .cons (.mk name init) rest =>
    let t1 :=
      match name, init with
      | .identP n, .someE e =>
        match eval_string_expr t e with
        | some v => insertConst t n v
        | none => t
      | _, _ => t
    ccInsertPass rest t1

mutual
/-- ConstCollector::visit_stmt. -/
def ccStmt (s : Stmt) (t : CTable) : CTable :=
  match s with
  | .declS d => ccDecl d t
  | .exprStmt e => ccExpr e t
  | .retS (.someE e) => ccExpr e t
  | .retS .noneE => t
  | .blockS ss => ccStmtList ss t
  | .ifS test cons alt =>
    let t1 := ccExpr test t
    let t2 := ccStmt cons t1
    match alt with
    | .someS a => ccStmt a t2
    | .noneS => t2
  | .unhandledStmt => t
termination_by structural s

def ccStmtList (ss : StmtList) (t : CTable) : CTable :=
  match ss with
  | .nil => t
  | .cons s rest => ccStmtList rest (ccStmt s t)
termination_by structural ss

/-- ConstCollector::visit_decl; the variable-declaration arm is the body of
ConstCollector::collect_var_decl: the insert pass over const declarators followed by
the visit pass over every initializer. -/
def ccDecl (d : Decl) (t : CTable) : CTable :=
  match d with
  | .varD isConst ds => ccVisitInitPass ds (if isConst then ccInsertPass ds t else t)
  | .fnD body _ => ccStmtList body t
  | .unhandledDecl => t
termination_by structural d

def ccVisitInitPass (ds : DeclaratorList) (t : CTable) : CTable :=
  match ds with
  | .nil => t
  | .cons (.mk _ init) rest =>
    let t1 :=
      match init with
      | .someE e => ccExpr e t
      | .noneE => t
    ccVisitInitPass rest t1
termination_by structural ds

/-- ConstCollector::visit_expr. -/
def ccExpr (e : Expr) (t : CTable) : CTable :=
  match e with
  | .callE callee args _ =>
    let t1 := ccExprList args t
    match callee with
    | .calleeExpr ce => ccExpr ce t1
    | .calleeOther => t1
  | .arrow body _ =>
    match body with
    | .blockBody ss _ => ccStmtList ss t
    | .exprBody be => ccExpr be t
  | .fnExpr body _ _ => ccStmtList body t
  | .paren inner _ => ccExpr inner t
  | .bin _ l r _ => ccExpr r (ccExpr l t)
  | .condE test cons alt _ => ccExpr alt (ccExpr cons (ccExpr test t))
  | .assign right _ => ccExpr right t
  | .arrayE elems _ => ccExprList elems t
  | .objectE props _ => ccPropList props t
  | .tpl _ exprs _ => ccExprList exprs t
  | .member obj prop _ =>
    let t1 := ccExpr obj t
    match prop with
    | .computedProp ce => ccExpr ce t1
    | .identProp _ => t1
  | .awaitE arg _ => ccExpr arg t
  | .tsAs inner _ => ccExpr inner t
  | .tsSatisfies inner _ => ccExpr inner t
  | .tsNonNull inner _ => ccExpr inner t
  | _ => t
termination_by structural e

def ccExprList (es : ExprList) (t : CTable) : CTable :=
  match es with
  | .nil => t
  | .cons e rest => ccExprList rest (ccExpr e t)
termination_by structural es

def ccPropList (ps : PropList) (t : CTable) : CTable :=
  match ps with
  | .nil => t
  | .cons p rest =>
    let t1 :=
      match p with
      | .keyValue v => ccExpr v t
      | .spread e => ccExpr e t
    ccPropList rest t1
termination_by structural ps
end

def ccModuleItem (item : ModuleItem) (t : CTable) : CTable :=
  match item with
  | .stmtItem s => ccStmt s t
  | .exportDecl d => ccDecl d t
  | .exportDefaultExpr e => ccExpr e t
  | .exportDefaultFn body _ => ccStmtList body t
  | .otherModuleItem => t

/-- collect_consts in scan.rs: one traversal of the whole module. -/
def collect_consts (m : Module) : CTable :=
  m.foldl (fun t item => ccModuleItem item t) []

/-- NamespaceScope in scan.rs. -/
structure NamespaceScope where
  ns : Option String
  t_func : Option String
  start_line : Nat
  end_line : Nat
deriving Repr, DecidableEq

/-- The NamespaceScope pushed for a recognized hook call found in a bare expression
statement: a bare hook call implies the default t function in this scope. -/
def hookScopeOfExprStmt (consts : CTable) (e : Expr) (scopeStart scopeEnd : Nat) :
    List NamespaceScope :=
  match extract_hook_call e with
  | some (callee, args, _) =>
    match get_callee_name callee with
    | some name =>
      if is_translation_hook name then
        [{ ns := get_first_string_arg args consts, t_func := some "t",
           start_line := scopeStart, end_line := scopeEnd }]
      else []
    | none => []
  | none => []

/-- The NamespaceScope pushed for a recognized hook call initializing a declarator. -/
def hookScopeOfDeclarator (consts : CTable) (name : Pat) (e : Expr)
    (scopeStart scopeEnd : Nat) : List NamespaceScope :=
  match extract_hook_call e with
  | some (callee, args, _) =>
    match get_callee_name callee with
    | some fname =>
      if is_translation_hook fname then
        [{ ns := get_first_string_arg args consts, t_func := detect_t_func_name name,
           start_line := scopeStart, end_line := scopeEnd }]
      else []
    | none => []
  | none => []

mutual
/-- ScopeCollector::visit_stmt: carries the enclosing scope line range. -/
def scStmt (consts : CTable) (s : Stmt) (scopeStart scopeEnd : Nat) :
    List NamespaceScope :=
  match s with
  | .declS d => scDecl consts d scopeStart scopeEnd
  | .exprStmt e =>
    hookScopeOfExprStmt consts e scopeStart scopeEnd ++ scExpr consts e scopeStart scopeEnd
  | .retS (.someE e) => scExpr consts e scopeStart scopeEnd
  | .retS .noneE => []
  | .blockS ss => scStmtList consts ss scopeStart scopeEnd
  | .ifS _ cons alt =>
    scStmt consts cons scopeStart scopeEnd ++
      (match alt with
       | .someS a => scStmt consts a scopeStart scopeEnd
       | .noneS => [])
  | .unhandledStmt => []

def scStmtList (consts : CTable) (ss : StmtList) (scopeStart scopeEnd : Nat) :
    List NamespaceScope :=
  match ss with
  | .nil => []
  | .cons s rest =>
    scStmt consts s scopeStart scopeEnd ++ scStmtList consts rest scopeStart scopeEnd

/-- ScopeCollector::visit_decl: hook detection per declarator, narrowing to a function
body line span when entering a function declaration. -/
def scDecl (consts : CTable) (d : Decl) (scopeStart scopeEnd : Nat) :
    List NamespaceScope :=
  match d with
  | .varD _ ds => scDeclarators consts ds scopeStart scopeEnd
  | .fnD body bodySpan => scStmtList consts body bodySpan.startLine bodySpan.endLine
  | .unhandledDecl => []

def scDeclarators (consts : CTable) (ds : DeclaratorList) (scopeStart scopeEnd : Nat) :
    List NamespaceScope :=
  match ds with
  | .nil => []
  | .cons (.mk name init) rest =>
    (match init with
     | .someE e =>
       hookScopeOfDeclarator consts name e scopeStart scopeEnd ++
         scExpr consts e scopeStart scopeEnd
     | .noneE => []) ++
      scDeclarators consts rest scopeStart scopeEnd

/-- ScopeCollector::visit_expr: narrows the scope context to arrow/function body spans
before recursing, and only traverses call arguments and parenthesized expressions
otherwise. -/
def scExpr (consts : CTable) (e : Expr) (scopeStart scopeEnd : Nat) :
    List NamespaceScope :=
  match e with
  | .arrow body sp =>
    (match body with
     | .blockBody ss blockSpan =>
       scStmtList consts ss blockSpan.startLine blockSpan.endLine
     | .exprBody be => scExpr consts be sp.startLine sp.endLine)
  | .fnExpr body bodySpan _ => scStmtList consts body bodySpan.startLine bodySpan.endLine
  | .callE _ args _ => scExprArgs consts args scopeStart scopeEnd
  | .paren inner _ => scExpr consts inner scopeStart scopeEnd
  | _ => []

def scExprArgs (consts : CTable) (es : ExprList) (scopeStart scopeEnd : Nat) :
    List NamespaceScope :=
  match es with
  | .nil => []
  | .cons e rest =>
    scExpr consts e scopeStart scopeEnd ++ scExprArgs consts rest scopeStart scopeEnd
end

def scModuleItem (consts : CTable) (item : ModuleItem) : List NamespaceScope :=
  match item with
  | .stmtItem s => scStmt consts s 0 U32_MAX
  | .exportDecl d => scDecl consts d 0 U32_MAX
  | .exportDefaultExpr e => scExpr consts e 0 U32_MAX
  | .exportDefaultFn body bodySpan =>
    scStmtList consts body bodySpan.startLine bodySpan.endLine
  | .otherModuleItem => []

/-- Ascending comparison on scope span length, the sort key of collect_scopes_precise. -/
def scopeSizeLE (s1 s2 : NamespaceScope) : Prop :=
  s1.end_line - s1.start_line ≤ s2.end_line - s2.start_line

instance : DecidableRel scopeSizeLE := fun _ _ => Nat.decLe _ _

/-- collect_scopes_precise in scan.rs: collect in traversal order, then stable-sort by
ascending scope size, smallest first. -/
def collect_scopes_precise (m : Module) (consts : CTable) : List NamespaceScope :=
  List.insertionSort scopeSizeLE
    (m.foldl (fun acc item => acc ++ scModuleItem consts item) [])

/-- ScanItem in scan.rs; the field named namespace there is called ns here because
namespace is a reserved word in Lean. -/
structure ScanItem where
  key : String
  raw : String
  ns : String
  lnum : Nat
  col : Nat
  end_col : Nat
  fallback : Bool
deriving Repr, DecidableEq

/-- The read-only context the CallVisitor carries. -/
structure ScanCtx where
  consts : CTable
  scopes : List NamespaceScope
  fallback_namespace : String
  range : Option Range

/-- Whether the key text contains a colon (Rust value.find of the colon character). -/
def containsColon (value : String) : Bool :=
  value.toList.any (fun c => c == ':')

/-- The text before the first colon (the slice up to the found byte position). -/
def beforeColon (value : String) : String :=
  String.mk (value.toList.takeWhile (fun c => c != ':'))

/-- The scope walk inside CallVisitor::resolve_namespace: the first scope in scope
order that contains the line and has a defined namespace; scopes without a namespace
are skipped. -/
def findNsScope (scopes : List NamespaceScope) (lnum : Nat) : Option String :=
  match scopes with
  | [] => none
  | s :: rest =>
    if s.start_line ≤ lnum ∧ lnum ≤ s.end_line then
      match s.ns with
      | some ns => some ns
      | none => findNsScope rest lnum
    else findNsScope rest lnum

/-- CallVisitor::resolve_namespace: explicit colon form first, then the innermost
enclosing scope with a namespace, then the caller-supplied fallback; the result is
(key, namespace, used_fallback_namespace). -/
def resolve_namespace (scopes : List NamespaceScope) (fallback_namespace : String)
    (value : String) (lnum : Nat) : String × String × Bool :=
  if containsColon value then
    (value, beforeColon value, false)
  else
    match findNsScope scopes lnum with
    | some ns => (ns ++ ":" ++ value, ns, false)
    | none => (fallback_namespace ++ ":" ++ value, fallback_namespace, true)

/-- CallVisitor::is_translation_call: the literal name t, or the t_func alias of any
scope containing the line of the call itself. -/
def is_translation_call (scopes : List NamespaceScope) (func_name : String)
    (callLnum : Nat) : Bool :=
  func_name == "t" ||
    scopes.any (fun s =>
      decide (s.start_line ≤ callLnum) && decide (callLnum ≤ s.end_line) &&
        (s.t_func == some func_name))

/-- The callee analysis at the top of CallVisitor::check_call: a bare identifier gives
(name, false); a member access with literal property t gives (t, true); anything
else disqualifies the call. -/
def calleeNameInfo : Callee → Option (String × Bool)
  | .calleeExpr (.identE name _) => some (name, false)
  | .calleeExpr (.member _ (.identProp prop) _) =>
    if prop == "t" then some ("t", true) else none
  | _ => none

/-- CallVisitor::check_call: emits at most one ScanItem for a call expression. -/
def check_call (ctx : ScanCtx) (callee : Callee) (args : ExprList) (callSpan : Span) :
    Option ScanItem :=
  match calleeNameInfo callee with
  | none => none
  | some (func_name, is_member_t) =>
    if is_translation_hook func_name then none
    else if !is_member_t && !is_translation_call ctx.scopes func_name callSpan.startLine
    then none
    else
      match args.head? with
      | none => none
      | some firstArg =>
        match eval_string_expr ctx.consts firstArg with
        | none => none
        | some value =>
          let (lnum, col, end_col) := spanToLoc3 firstArg.span
          let inRange :=
            match ctx.range with
            | some r => !(decide (lnum < r.start_line) || decide (r.end_line < lnum))
            | none => true
          if inRange then
            let (key, ns, fallback) :=
              resolve_namespace ctx.scopes ctx.fallback_namespace value lnum
            some { key := key, raw := value, ns := ns, lnum := lnum, col := col,
                   end_col := end_col, fallback := fallback }
          else none

mutual
/-- CallVisitor::visit_stmt. -/
def cvStmt (ctx : ScanCtx) (s : Stmt) : List ScanItem :=
  match s with
  | .exprStmt e => cvExpr ctx e
  | .declS d => cvDecl ctx d
  | .retS (.someE e) => cvExpr ctx e
  | .retS .noneE => []
  | .blockS ss => cvStmtList ctx ss
  | .ifS test cons alt =>
    cvExpr ctx test ++ cvStmt ctx cons ++
      (match alt with
       | .someS a => cvStmt ctx a
       | .noneS => [])
  | .unhandledStmt => []

def cvStmtList (ctx : ScanCtx) (ss : StmtList) : List ScanItem :=
  match ss with
  | .nil => []
  | .cons s rest => cvStmt ctx s ++ cvStmtList ctx rest

/-- CallVisitor::visit_decl. -/
def cvDecl (ctx : ScanCtx) (d : Decl) : List ScanItem :=
  match d with
  | .varD _ ds => cvDeclarators ctx ds
  | .fnD body _ => cvStmtList ctx body
  | .unhandledDecl => []

def cvDeclarators (ctx : ScanCtx) (ds : DeclaratorList) : List ScanItem :=
  match ds with
  | .nil => []
  | .cons (.mk _ init) rest =>
    (match init with
     | .someE e => cvExpr ctx e
     | .noneE => []) ++ cvDeclarators ctx rest

/-- CallVisitor::visit_expr: check_call on call expressions, then recurse into
arguments and the callee; plain traversal elsewhere. -/
def cvExpr (ctx : ScanCtx) (e : Expr) : List ScanItem :=
  match e with
  | .callE callee args sp =>
    (check_call ctx callee args sp).toList ++ cvExprList ctx args ++
      (match callee with
       | .calleeExpr ce => cvExpr ctx ce
       | .calleeOther => [])
  | .arrow body _ =>
    (match body with
     | .blockBody ss _ => cvStmtList ctx ss
     | .exprBody be => cvExpr ctx be)
  | .fnExpr body _ _ => cvStmtList ctx body
  | .paren inner _ => cvExpr ctx inner
  | .bin _ l r _ => cvExpr ctx l ++ cvExpr ctx r
  | .condE test cons alt _ => cvExpr ctx test ++ cvExpr ctx cons ++ cvExpr ctx alt
  | .assign right _ => cvExpr ctx right
  | .arrayE elems _ => cvExprList ctx elems
  | .objectE props _ => cvPropList ctx props
  | .tpl _ exprs _ => cvExprList ctx exprs
  | .member obj _ _ => cvExpr ctx obj
  | .jsxElement el _ => cvJsxElement ctx el
  | .jsxFragment children _ => cvJsxChildren ctx children
  | .awaitE arg _ => cvExpr ctx arg
  | .tsAs inner _ => cvExpr ctx inner
  | .tsSatisfies inner _ => cvExpr ctx inner
  | .tsNonNull inner _ => cvExpr ctx inner
  | _ => []

def cvExprList (ctx : ScanCtx) (es : ExprList) : List ScanItem :=
  match es with
  | .nil => []
  | .cons e rest => cvExpr ctx e ++ cvExprList ctx rest

def cvPropList (ctx : ScanCtx) (ps : PropList) : List ScanItem :=
  match ps with
  | .nil => []
  | .cons p rest =>
    (match p with
     | .keyValue v => cvExpr ctx v
     | .spread e => cvExpr ctx e) ++ cvPropList ctx rest

/-- CallVisitor::visit_jsx_element: attribute expression containers, then children. -/
def cvJsxElement (ctx : ScanCtx) (el : JSXElt) : List ScanItem :=
  match el with
  | .mk _ attrs children => cvAttrs ctx attrs ++ cvJsxChildren ctx children

def cvAttrs (ctx : ScanCtx) (attrs : AttrList) : List ScanItem :=
  match attrs with
  | .nil => []
  | .cons a rest =>
    (match a with
     | .someE e => cvExpr ctx e
     | .noneE => []) ++ cvAttrs ctx rest

/-- CallVisitor::visit_jsx_child. -/
def cvJsxChild (ctx : ScanCtx) (child : JSXChild) : List ScanItem :=
  match child with
  | .exprContainer (.someE e) _ => cvExpr ctx e
  | .exprContainer .noneE _ => []
  | .childElement el => cvJsxElement ctx el
  | .childFragment children => cvJsxChildren ctx children
  | _ => []

def cvJsxChildren (ctx : ScanCtx) (children : JSXChildList) : List ScanItem :=
  match children with
  | .nil => []
  | .cons c rest => cvJsxChild ctx c ++ cvJsxChildren ctx rest
end

def cvModuleItem (ctx : ScanCtx) (item : ModuleItem) : List ScanItem :=
  match item with
  | .stmtItem s => cvStmt ctx s
  | .exportDecl d => cvDecl ctx d
  | .exportDefaultExpr e => cvExpr ctx e
  | .exportDefaultFn body _ => cvStmtList ctx body
  | .otherModuleItem => []

/-- extract_calls in scan.rs: emit ScanItems in source traversal order. -/
def extract_calls (m : Module) (consts : CTable) (scopes : List NamespaceScope)
    (fallback_namespace : String) (range : Option Range) : List ScanItem :=
  m.foldl
    (fun acc item =>
      acc ++ cvModuleItem
        { consts := consts, scopes := scopes, fallback_namespace := fallback_namespace,
          range := range } item)
    []

/-- The parser configuration parse_module selects for a language tag: tsx, typescript,
jsx, and the default arm. -/
inductive DialectConfig where
  | typescriptDialect (tsx : Bool)
  | esDialect (jsx : Bool)
deriving Repr, DecidableEq

def dialect_of_lang (lang : String) : DialectConfig :=
  if lang == "tsx" then .typescriptDialect true
  else if lang == "typescript" then .typescriptDialect false
  else if lang == "jsx" then .esDialect true
  else .esDialect true

/-- Outcome of the external swc parser on one source text. -/
inductive ParseOutcome where
  | ok (m : Module)
  | failed (msg : String)

/-- The external swc parser abstracted as an oracle from (configured dialect, source
text) to a parse outcome.  The parser itself is outside the analysis core. -/
def ParseOracle := DialectConfig → String → ParseOutcome

/-- parse_module in scan.rs (hardcoded.rs defines the identical function): configure the
dialect from the language tag, run the external parser, and wrap a failure in an error
value built from the diagnostic message alone. -/
def parse_module (oracle : ParseOracle) (source lang : String) : Except String Module :=
  match oracle (dialect_of_lang lang) source with
  | .ok m => .ok m
  | .failed msg => .error ("parse error: " ++ msg)

/-- ExtractParams in scan.rs. -/
structure ExtractParams where
  source : String
  lang : String
  fallback_namespace : String
  range : Option Range
deriving DecidableEq

/-- The scan pipeline after parsing: constant table, scopes, then call extraction. -/
def extract_module (m : Module) (fallback_namespace : String) (range : Option Range) :
    List ScanItem :=
  let consts := collect_consts m
  let scopes := collect_scopes_precise m consts
  extract_calls m consts scopes fallback_namespace range

/-- extract in scan.rs: parse, then run the pipeline; a parse failure propagates as the
error of parse_module. -/
def extract (oracle : ParseOracle) (p : ExtractParams) : Except String (List ScanItem) :=
  match parse_module oracle p.source p.lang with
  | .error e => .error e
  | .ok m => .ok (extract_module m p.fallback_namespace p.range)

/-- TranslationContext in scan.rs; the field named namespace there is called ns here. -/
structure TranslationContext where
  ns : String
  t_func : String
  found_hook : Bool
  has_any_hook : Bool
deriving Repr, DecidableEq

/-- The point-lookup predicate of translation_context_at. -/
def scopeContains (row : Nat) (s : NamespaceScope) : Bool :=
  decide (s.start_line ≤ row) && decide (row ≤ s.end_line)

/-- translation_context_at in scan.rs, after parsing: the first scope in size order
that contains the row decides the whole answer; its missing fields default to the
fallback namespace and the literal name t. -/
def translation_context_at (m : Module) (row : Nat) (fallback_namespace : String) :
    TranslationContext :=
  let consts := collect_consts m
  let scopes := collect_scopes_precise m consts
  let found := scopes.find? (scopeContains row)
  { ns := (found.bind (fun s => s.ns)).getD fallback_namespace,
    t_func := (found.bind (fun s => s.t_func)).getD "t",
    found_hook := found.isSome,
    has_any_hook := !scopes.isEmpty }

/-- HardcodedItem in hardcoded.rs. -/
structure HardcodedItem where
  lnum : Nat
  col : Nat
  end_lnum : Nat
  end_col : Nat
  text : String
  kind : String
deriving Repr, DecidableEq

def default_min_length : Nat := 2

def default_exclude_components : List String := ["Trans", "Translation"]

/-- The maximal non-whitespace runs of a character list, accumulator reversed
(Rust str split_whitespace). -/
def splitWhitespaceAux : List Char → List Char → List String
  | [], acc => if acc.isEmpty then [] else [String.mk acc.reverse]
  | c :: cs, acc =>
    if c.isWhitespace then
      if acc.isEmpty then splitWhitespaceAux cs []
      else String.mk acc.reverse :: splitWhitespaceAux cs []
    else splitWhitespaceAux cs (c :: acc)

def splitWhitespace (text : String) : List String := splitWhitespaceAux text.toList []

/-- Join a list of fragments with single spaces (Rust join on a space). -/
def joinSpace : List String → String
  | [] => ""
  | [s] => s
  | s :: rest => s ++ " " ++ joinSpace rest

/-- Strip leading and trailing whitespace (Rust str trim). -/
def trimChars (l : List Char) : List Char :=
  ((l.dropWhile Char.isWhitespace).reverse.dropWhile Char.isWhitespace).reverse

def trimStr (s : String) : String := String.mk (trimChars s.toList)

/-- normalize_whitespace in hardcoded.rs: collapse whitespace runs to single spaces and
trim the ends. -/
def normalize_whitespace (text : String) : String :=
  trimStr (joinSpace (splitWhitespace text))

/-- eval_literal in hardcoded.rs: string literal, interpolation-free template, or a
parenthesized such expression. -/
def eval_literal : Expr → Option String
  | .litStr v _ => some v
  | .tpl quasis exprs _ =>
    if exprs.isNil then some (String.join quasis) else none
  | .paren inner _ => eval_literal inner
  | _ => none

/-- One frame of the ancestor stack of the HardcodedVisitor. -/
inductive AncestorKind where
  | callFrame (name : String)
  | jsxFrame (name : String)
deriving Repr, DecidableEq

/-- is_inside_t_call in hardcoded.rs: some enclosing call frame is named t. -/
def is_inside_t_call (ancestors : List AncestorKind) : Bool :=
  ancestors.any (fun a =>
    match a with
    | .callFrame name => name == "t"
    | _ => false)

/-- The final dot segment of a component name: the suffix after the last dot, the
whole name when it has no dot (Rust rsplit on the dot, first item). -/
def shortName (name : String) : String :=
  String.mk ((name.toList.reverse.takeWhile (fun c => c != '.')).reverse)

/-- The per-frame test inside is_inside_excluded, mirroring the redundant double check
of the source. -/
def isExcludedFrame (exclude_set : List String) (name : String) : Bool :=
  if exclude_set.contains name then
    exclude_set.contains (shortName name) || exclude_set.contains name
  else exclude_set.contains (shortName name)

/-- is_inside_excluded in hardcoded.rs: some enclosing JSX element frame has its name,
or the final dot segment of its name, in the excluded set. -/
def is_inside_excluded (ancestors : List AncestorKind) (exclude_set : List String) :
    Bool :=
  ancestors.any (fun a =>
    match a with
    | .jsxFrame name => isExcludedFrame exclude_set name
    | _ => false)

/-- in_range in hardcoded.rs: the node line span intersects the filter range. -/
def in_range (start_line end_line : Nat) (range : Option Range) : Bool :=
  match range with
  | none => true
  | some r => decide (r.start_line ≤ end_line) && decide (start_line ≤ r.end_line)

/-- HardcodedVisitor::check_jsx_text. -/
def check_jsx_text (ancestors : List AncestorKind) (exclude_set : List String)
    (min_length : Nat) (range : Option Range) (value : String) (sp : Span) :
    Option HardcodedItem :=
  let (start_line, start_col, end_line, end_col) := spanToLoc4 sp
  if !in_range start_line end_line range then none
  else if is_inside_excluded ancestors exclude_set then none
  else if is_inside_t_call ancestors then none
  else
    let normalized := normalize_whitespace value
    if min_length ≤ normalized.utf8ByteSize then
      some { lnum := start_line, col := start_col, end_lnum := end_line,
             end_col := end_col, text := normalized, kind := "jsx_text" }
    else none

/-- HardcodedVisitor::check_jsx_literal: the guards use the container span, the emitted
record uses the inner expression span and keeps the literal value untrimmed. -/
def check_jsx_literal (ancestors : List AncestorKind) (exclude_set : List String)
    (min_length : Nat) (range : Option Range) (e : Expr) (containerSpan : Span) :
    Option HardcodedItem :=
  let (start_line, _, end_line, _) := spanToLoc4 containerSpan
  if !in_range start_line end_line range then none
  else if is_inside_excluded ancestors exclude_set then none
  else if is_inside_t_call ancestors then none
  else
    match eval_literal e with
    | some literal =>
      if min_length ≤ (trimStr literal).utf8ByteSize then
        let (lnum, col, end_lnum, end_col) := spanToLoc4 e.span
        some { lnum := lnum, col := col, end_lnum := end_lnum, end_col := end_col,
               text := literal, kind := "jsx_literal" }
      else none
    | none => none

/-- jsx_object_name in hardcoded.rs. -/
def jsx_object_name : JSXObj → String
  | .identObj name => name
  | .memberObj obj prop => jsx_object_name obj ++ "." ++ prop

/-- get_jsx_element_name in hardcoded.rs. -/
def get_jsx_element_name : JSXName → String
  | .identName name => name
  | .memberName obj prop => jsx_object_name obj ++ "." ++ prop
  | .namespacedName nsPart name => nsPart ++ ":" ++ name

/-- The callee-name computation inside the call arm of HardcodedVisitor::visit_expr:
a bare identifier name, or the property name of any member access. -/
def hcCalleeName : Callee → Option String
  | .calleeExpr (.identE name _) => some name
  | .calleeExpr (.member _ (.identProp prop) _) => some prop
  | _ => none

/-- The configuration the HardcodedVisitor carries besides the ancestor stack. -/
structure HcCtx where
  min_length : Nat
  exclude_set : List String
  range : Option Range

mutual
/-- HardcodedVisitor::visit_stmt. -/
def hvStmt (ctx : HcCtx) (ancestors : List AncestorKind) (s : Stmt) :
    List HardcodedItem :=
  match s with
  | .exprStmt e => hvExpr ctx ancestors e
  | .declS d => hvDecl ctx ancestors d
  | .retS (.someE e) => hvExpr ctx ancestors e
  | .retS .noneE => []
  | .blockS ss => hvStmtList ctx ancestors ss
  | .ifS test cons alt =>
    hvExpr ctx ancestors test ++ hvStmt ctx ancestors cons ++
      (match alt with
       | .someS a => hvStmt ctx ancestors a
       | .noneS => [])
  | .unhandledStmt => []

def hvStmtList (ctx : HcCtx) (ancestors : List AncestorKind) (ss : StmtList) :
    List HardcodedItem :=
  match ss with
  | .nil => []
  | .cons s rest => hvStmt ctx ancestors s ++ hvStmtList ctx ancestors rest

/-- HardcodedVisitor::visit_decl. -/
def hvDecl (ctx : HcCtx) (ancestors : List AncestorKind) (d : Decl) :
    List HardcodedItem :=
  match d with
  | .varD _ ds => hvDeclarators ctx ancestors ds
  | .fnD body _ => hvStmtList ctx ancestors body
  | .unhandledDecl => []

def hvDeclarators (ctx : HcCtx) (ancestors : List AncestorKind) (ds : DeclaratorList) :
    List HardcodedItem :=
  match ds with
  | .nil => []
  | .cons (.mk _ init) rest =>
    (match init with
     | .someE e => hvExpr ctx ancestors e
     | .noneE => []) ++ hvDeclarators ctx ancestors rest

/-- HardcodedVisitor::visit_expr: a named call pushes a call frame around its
arguments only; the callee is visited outside the frame. -/
def hvExpr (ctx : HcCtx) (ancestors : List AncestorKind) (e : Expr) :
    List HardcodedItem :=
  match e with
  | .jsxElement el _ => hvJsxElement ctx ancestors el
  | .jsxFragment children _ => hvJsxChildren ctx ancestors children
  | .callE callee args _ =>
    (match hcCalleeName callee with
     | some name => hvArgs ctx (AncestorKind.callFrame name :: ancestors) args
     | none => hvArgs ctx ancestors args) ++
      (match callee with
       | .calleeExpr ce => hvExpr ctx ancestors ce
       | .calleeOther => [])
  | .arrow body _ =>
    (match body with
     | .blockBody ss _ => hvStmtList ctx ancestors ss
     | .exprBody be => hvExpr ctx ancestors be)
  | .fnExpr body _ _ => hvStmtList ctx ancestors body
  | .paren inner _ => hvExpr ctx ancestors inner
  | .condE test cons alt _ =>
    hvExpr ctx ancestors test ++ hvExpr ctx ancestors cons ++ hvExpr ctx ancestors alt
  | .arrayE elems _ => hvArgs ctx ancestors elems
  | .objectE props _ => hvProps ctx ancestors props
  | _ => []

def hvArgs (ctx : HcCtx) (ancestors : List AncestorKind) (es : ExprList) :
    List HardcodedItem :=
  match es with
  | .nil => []
  | .cons e rest => hvExpr ctx ancestors e ++ hvArgs ctx ancestors rest

/-- Object literals in HardcodedVisitor::visit_expr only descend into key-value
property values; spreads are ignored. -/
def hvProps (ctx : HcCtx) (ancestors : List AncestorKind) (ps : PropList) :
    List HardcodedItem :=
  match ps with
  | .nil => []
  | .cons p rest =>
    (match p with
     | .keyValue v => hvExpr ctx ancestors v
     | .spread _ => []) ++ hvProps ctx ancestors rest

/-- HardcodedVisitor::visit_jsx_element: the element frame is pushed before the
attributes and children are visited, and popped afterwards. -/
def hvJsxElement (ctx : HcCtx) (ancestors : List AncestorKind) (el : JSXElt) :
    List HardcodedItem :=
  match el with
  | .mk name attrs children =>
    let inner := AncestorKind.jsxFrame (get_jsx_element_name name) :: ancestors
    hvAttrs ctx inner attrs ++ hvJsxChildren ctx inner children

def hvAttrs (ctx : HcCtx) (ancestors : List AncestorKind) (attrs : AttrList) :
    List HardcodedItem :=
  match attrs with
  | .nil => []
  | .cons a rest =>
    (match a with
     | .someE e => hvExpr ctx ancestors e
     | .noneE => []) ++ hvAttrs ctx ancestors rest

/-- HardcodedVisitor::visit_jsx_child. -/
def hvJsxChild (ctx : HcCtx) (ancestors : List AncestorKind) (child : JSXChild) :
    List HardcodedItem :=
  match child with
  | .jsxText value sp =>
    (check_jsx_text ancestors ctx.exclude_set ctx.min_length ctx.range value sp).toList
  | .exprContainer (.someE e) sp =>
    (check_jsx_literal ancestors ctx.exclude_set ctx.min_length ctx.range e sp).toList ++
      hvExpr ctx ancestors e
  | .exprContainer .noneE _ => []
  | .childElement el => hvJsxElement ctx ancestors el
  | .childFragment children => hvJsxChildren ctx ancestors children
  | .unhandledChild => []

def hvJsxChildren (ctx : HcCtx) (ancestors : List AncestorKind) (children : JSXChildList) :
    List HardcodedItem :=
  match children with
  | .nil => []
  | .cons c rest => hvJsxChild ctx ancestors c ++ hvJsxChildren ctx ancestors rest
end

def hvModuleItem (ctx : HcCtx) (item : ModuleItem) : List HardcodedItem :=
  match item with
  | .stmtItem s => hvStmt ctx [] s
  | .exportDecl d => hvDecl ctx [] d
  | .exportDefaultExpr e => hvExpr ctx [] e
  | .exportDefaultFn body _ => hvStmtList ctx [] body
  | .otherModuleItem => []

/-- The position order used by the final sort of the hardcoded extractor: ascending
(start_line, start_col) lexicographically. -/
def itemPosLE (a b : HardcodedItem) : Prop :=
  a.lnum < b.lnum ∨ (a.lnum = b.lnum ∧ a.col ≤ b.col)

instance : DecidableRel itemPosLE := fun _ _ =>
  inferInstanceAs (Decidable (_ ∨ _))

/-- hardcoded::extract after parsing: run the visitor from an empty ancestor stack and
stable-sort the results by position. -/
def hardcoded_extract_module (m : Module) (min_length : Nat)
    (exclude_components : List String) (range : Option Range) : List HardcodedItem :=
  let ctx : HcCtx :=
    { min_length := min_length, exclude_set := exclude_components, range := range }
  List.insertionSort itemPosLE
    (m.foldl (fun acc item => acc ++ hvModuleItem ctx item) [])

/-- ExtractParams in hardcoded.rs. -/
structure HardcodedParams where
  source : String
  lang : String
  range : Option Range
  min_length : Nat
  exclude_components : List String
deriving DecidableEq

/-- extract in hardcoded.rs: parse, then detect hardcoded text. -/
def hardcoded_extract (oracle : ParseOracle) (p : HardcodedParams) :
    Except String (List HardcodedItem) :=
  match parse_module oracle p.source p.lang with
  | .error e => .error e
  | .ok m => .ok (hardcoded_extract_module m p.min_length p.exclude_components p.range)

/-! Concrete syntax trees used as test inputs by the theorems below. -/

def exSpan0 : Span := ⟨0, 0, 0, 0⟩

/-- The tree of: const \x7b t \x7d = useTranslation of the literal ns. -/
def exC1HookDecl : Stmt :=
  .declS (.varD true
    (.cons (.mk (.objectP (.cons (.assignProp "t") .nil))
      (.someE (.callE (.calleeExpr (.identE "useTranslation" exSpan0))
        (.cons (.litStr "ns" exSpan0) .nil) exSpan0)))
     .nil))

/-- The tree of: t of the literal key, with the argument at span sp. -/
def exC1TCall (sp : Span) : Stmt :=
  .exprStmt (.callE (.calleeExpr (.identE "t" ⟨1, 0, 1, 8⟩))
    (.cons (.litStr "key" sp) .nil) ⟨1, 0, 1, 9⟩)

def exC1Module (sp : Span) : Module := [.stmtItem exC1HookDecl, .stmtItem (exC1TCall sp)]

/-- The tree of: i18n.t of the literal greeting, with the argument at span sp. -/
def exC3Module (sp : Span) : Module :=
  [.stmtItem (.exprStmt (.callE
    (.calleeExpr (.member (.identE "i18n" exSpan0) (.identProp "t") exSpan0))
    (.cons (.litStr "greeting" sp) .nil) ⟨0, 0, 0, 20⟩))]

def exConstDecl (init : Expr) : Module :=
  [.stmtItem (.declS (.varD true (.cons (.mk (.identP "KEY") (.someE init)) .nil)))]

/-- const KEY = the literal hello as const -/
def exC4AsConst : Module := exConstDecl (.tsAs (.litStr "hello" exSpan0) exSpan0)

/-- const KEY = the literal hello satisfies string -/
def exC4Satisfies : Module := exConstDecl (.tsSatisfies (.litStr "hello" exSpan0) exSpan0)

/-- const KEY = the literal hello with a non-null assertion -/
def exC4NonNull : Module := exConstDecl (.tsNonNull (.litStr "hello" exSpan0) exSpan0)

/-- const KEY = the literal hello, unwrapped -/
def exC4Plain : Module := exConstDecl (.litStr "hello" exSpan0)

/-- const KEY = an interpolation-free template literal -/
def exC4Tpl : Module := exConstDecl (.tpl ["hello"] .nil exSpan0)

/-- A div element directly containing the text Hello World. -/
def exC6Div : Module :=
  [.stmtItem (.exprStmt (.jsxElement
    (.mk (.identName "div") .nil
      (.cons (.jsxText "Hello World" ⟨0, 5, 0, 16⟩) .nil)) ⟨0, 0, 0, 22⟩))]

/-- A Trans element directly containing the text Hello World. -/
def exC6Trans : Module :=
  [.stmtItem (.exprStmt (.jsxElement
    (.mk (.identName "Trans") .nil
      (.cons (.jsxText "Hello World" ⟨0, 7, 0, 18⟩) .nil)) ⟨0, 0, 0, 26⟩))]

/-- A Trans element containing the text Hello World nested two elements deep. -/
def exC6TransNested : Module :=
  [.stmtItem (.exprStmt (.jsxElement
    (.mk (.identName "Trans") .nil
      (.cons (.childElement (.mk (.identName "div") .nil
        (.cons (.childElement (.mk (.identName "span") .nil
          (.cons (.jsxText "Hello World" ⟨0, 18, 0, 29⟩) .nil)))
         .nil)))
       .nil)) ⟨0, 0, 0, 51⟩))]

/-- A bare hook call with no argument at the top level: its module-wide scope has no
namespace. -/
def exC9Module : Module :=
  [.stmtItem (.exprStmt (.callE (.calleeExpr (.identE "useTranslation" exSpan0))
    .nil exSpan0))]

/-- Two overlapping scopes: a small namespace-less inner one and a large outer one
that defines a namespace. -/
def exC9Scopes : List NamespaceScope :=
  [⟨none, some "t", 2, 3⟩, ⟨some "outer", some "t", 0, 9⟩]

/-- A parser oracle that fails on every input with one fixed message. -/
def exFailOracle : ParseOracle := fun _ _ => .failed "Unexpected eof"

/-- A parser oracle that accepts every input as the empty module. -/
def exEmptyOracle : ParseOracle := fun _ _ => .ok []

/-! Helper lemmas shared by the claim theorems. -/

theorem dropWhile_head_not {α : Type} {p : α → Bool} :
    ∀ (l : List α) (hd : α) (tl : List α), l.dropWhile p = hd :: tl → p hd = false := by
  intro l
  induction l with
  | nil => intro hd tl h; simp [List.dropWhile] at h
  | cons a as ih =>
    intro hd tl h
    by_cases hp : p a = true
    · rw [List.dropWhile_cons_of_pos hp] at h
      exact ih hd tl h
    · rw [List.dropWhile_cons_of_neg hp] at h
      cases h
      simpa using hp

instance instItemPosLEIsTotal : IsTotal HardcodedItem itemPosLE where
  total a b := by unfold itemPosLE; omega

instance instItemPosLEIsTrans : IsTrans HardcodedItem itemPosLE where
  trans a b c hab hbc := by unfold itemPosLE at *; omega

/-! The claim theorems. -/

/-- C1: for the source shape const-destructure-t-from-useTranslation of namespace ns
followed by a call of t on the literal key, extraction yields exactly one usage record,
with key ns:key, namespace ns, and used_fallback_namespace false, for every fallback
namespace and every position of the key argument on a representable line. -/
theorem extract_destructured_hook_usage (fb : String) (sp : Span)
    (h : sp.startLine ≤ U32_MAX) :
    extract_module (exC1Module sp) fb none =
      [{ key := "ns:key", raw := "key", ns := "ns", lnum := sp.startLine,
         col := sp.startCol, end_col := sp.endCol, fallback := false }] := by
  have hfind : findNsScope [⟨some "ns", some "t", 0, U32_MAX⟩] sp.startLine
      = some "ns" := by
    unfold findNsScope
    rw [if_pos ⟨Nat.zero_le _, h⟩]
  have hres : resolve_namespace [⟨some "ns", some "t", 0, U32_MAX⟩] fb "key" sp.startLine
      = ("ns:key", "ns", false) := by
    unfold resolve_namespace
    rw [hfind]
    rw [if_neg (by decide)]
    rfl
  have hcc : check_call ⟨[], [⟨some "ns", some "t", 0, U32_MAX⟩], fb, none⟩
      (.calleeExpr (.identE "t" ⟨1, 0, 1, 8⟩)) (.cons (.litStr "key" sp) .nil)
      ⟨1, 0, 1, 9⟩ =
      some { key := "ns:key", raw := "key", ns := "ns", lnum := sp.startLine,
             col := sp.startCol, end_col := sp.endCol, fallback := false } := by
    unfold check_call
    simp [calleeNameInfo, is_translation_hook, is_translation_call, ExprList.head?,
      eval_string_expr, Expr.span, spanToLoc3, hres]
  show extract_calls (exC1Module sp) (collect_consts (exC1Module sp))
      (collect_scopes_precise (exC1Module sp) (collect_consts (exC1Module sp))) fb none = _
  have hscopes : collect_scopes_precise (exC1Module sp) (collect_consts (exC1Module sp))
      = [⟨some "ns", some "t", 0, U32_MAX⟩] := rfl
  rw [hscopes]
  show [] ++ ([] ++ []) ++
      ((check_call ⟨[], [⟨some "ns", some "t", 0, U32_MAX⟩], fb, none⟩
        (.calleeExpr (.identE "t" ⟨1, 0, 1, 8⟩)) (.cons (.litStr "key" sp) .nil)
          ⟨1, 0, 1, 9⟩).toList ++ ([] ++ []) ++ []) = _
  rw [hcc]
  rfl

theorem extract_destructured_hook_usage_witness :
    extract_module (exC1Module ⟨1, 2, 1, 7⟩) "fb" none =
      [{ key := "ns:key", raw := "key", ns := "ns", lnum := 1, col := 2, end_col := 7,
         fallback := false }] :=
  extract_destructured_hook_usage "fb" ⟨1, 2, 1, 7⟩ (by decide)

/-- C2: whenever the resolved key text contains a colon, resolve_namespace returns the
text itself as the key, the part before the first colon as the namespace, and a false
fallback flag, regardless of the scope list, the fallback namespace, and the line;
moreover the returned namespace really is the text before the first colon: the text
splits as namespace, colon, rest, with the namespace part colon-free. -/
theorem resolve_namespace_explicit_colon_priority (scopes : List NamespaceScope)
    (fallback_namespace value : String) (lnum : Nat)
    (h : containsColon value = true) :
    resolve_namespace scopes fallback_namespace value lnum =
      (value, beforeColon value, false) ∧
    ∃ rest : List Char,
      value.toList = (beforeColon value).toList ++ ':' :: rest ∧
        ':' ∉ (beforeColon value).toList := by
  constructor
  · unfold resolve_namespace
    rw [if_pos h]
  · unfold containsColon at h
    unfold beforeColon
    have hmem : ∃ c ∈ value.toList, (c == ':') = true := by
      simpa [List.any_eq_true] using h
    have hdrop : value.toList.dropWhile (fun c => c != ':') ≠ [] := by
      intro hnil
      rw [List.dropWhile_eq_nil_iff] at hnil
      obtain ⟨c, hc, hceq⟩ := hmem
      have h2 := hnil c hc
      rw [eq_of_beq hceq] at h2
      simp [bne] at h2
    obtain ⟨hd, tl, hcons⟩ := List.exists_cons_of_ne_nil hdrop
    have hhd : hd = ':' := by
      have := dropWhile_head_not _ _ _ hcons
      simpa using this
    refine ⟨tl, ?_, ?_⟩
    · have hsplit := List.takeWhile_append_dropWhile (p := fun c => c != ':')
        (l := value.toList)
      rw [hcons, hhd] at hsplit
      have hlist : (String.mk (value.toList.takeWhile (fun c => c != ':'))).toList
          = value.toList.takeWhile (fun c => c != ':') := rfl
      rw [hlist]
      exact hsplit.symm
    · intro hmemtake
      have hlist : (String.mk (value.toList.takeWhile (fun c => c != ':'))).toList
          = value.toList.takeWhile (fun c => c != ':') := rfl
      rw [hlist] at hmemtake
      have := List.mem_takeWhile_imp hmemtake
      simp [bne] at this

theorem resolve_namespace_explicit_colon_priority_witness :
    resolve_namespace [⟨some "scoped", some "t", 0, 10⟩] "fb" "ns:key" 5 =
      ("ns:key", beforeColon "ns:key", false) ∧
    ∃ rest : List Char,
      ("ns:key" : String).toList = (beforeColon "ns:key").toList ++ ':' :: rest ∧
        ':' ∉ (beforeColon "ns:key").toList :=
  resolve_namespace_explicit_colon_priority [⟨some "scoped", some "t", 0, 10⟩]
    "fb" "ns:key" 5 (by decide)

/-- C3: a member-access call with property t on a colon-free literal argument, in a
module with no namespace scope, yields one record keyed by the fallback namespace with
the used-fallback flag set, for every fallback namespace and argument position. -/
theorem extract_member_call_fallback (fb : String) (sp : Span) :
    extract_module (exC3Module sp) fb none =
      [{ key := fb ++ ":" ++ "greeting", raw := "greeting", ns := fb,
         lnum := sp.startLine, col := sp.startCol, end_col := sp.endCol,
         fallback := true }] := rfl

/-- C4 counterexample: after const KEY = the literal hello wrapped in an as-const cast,
the constant table has no entry for KEY at all, in particular not the value hello the
claim requires. -/
theorem const_as_wrapper_no_entry_cex :
    lookupConst (collect_consts exC4AsConst) "KEY" = none ∧
    lookupConst (collect_consts exC4AsConst) "KEY" ≠ some "hello" :=
  ⟨rfl, by decide⟩

/-- C4 amended: a const single-name binding whose initializer is an as-const,
satisfies, or non-null-asserted wrapper around an evaluable string yields no constant
table entry, because eval_string_expr does not unwrap those casts; unwrapped evaluable
initializers (string literal, interpolation-free template) are recorded. -/
theorem const_wrapper_forms_not_recorded :
    lookupConst (collect_consts exC4AsConst) "KEY" = none ∧
    lookupConst (collect_consts exC4Satisfies) "KEY" = none ∧
    lookupConst (collect_consts exC4NonNull) "KEY" = none ∧
    lookupConst (collect_consts exC4Plain) "KEY" = some "hello" ∧
    lookupConst (collect_consts exC4Tpl) "KEY" = some "hello" :=
  ⟨rfl, rfl, rfl, rfl, rfl⟩

/-- C5: for every module and configuration, the hardcoded-text records are returned in
ascending order of start line, with ties broken by ascending start column: every
adjacent pair is ordered. -/
theorem hardcoded_extract_sorted_by_position (m : Module) (min_length : Nat)
    (exclude_components : List String) (range : Option Range) :
    List.Chain' (fun a b => a.lnum < b.lnum ∨ (a.lnum = b.lnum ∧ a.col ≤ b.col))
      (hardcoded_extract_module m min_length exclude_components range) := by
  unfold hardcoded_extract_module
  exact (List.sorted_insertionSort itemPosLE _).chain'

/-- C6: whenever some enclosing JSX element frame, at any depth of the ancestor stack,
has its name or the final dot segment of its name in the excluded set, neither a JSX
text child nor a string-literal child emits a record; and concretely, a div containing
Hello World yields exactly one jsx_text record with that text, while the same text
directly inside Trans, or nested two elements deep inside Trans, yields no record
under the default excluded set. -/
theorem hardcoded_excluded_component_guard (ancestors : List AncestorKind)
    (exclude_set : List String) (min_length : Nat) (range : Option Range)
    (value : String) (sp : Span) (e : Expr) (csp : Span)
    (h : ∃ name, AncestorKind.jsxFrame name ∈ ancestors ∧
      (exclude_set.contains name = true ∨ exclude_set.contains (shortName name) = true)) :
    (check_jsx_text ancestors exclude_set min_length range value sp = none ∧
     check_jsx_literal ancestors exclude_set min_length range e csp = none) ∧
    hardcoded_extract_module exC6Div default_min_length default_exclude_components none =
      [⟨0, 5, 0, 16, "Hello World", "jsx_text"⟩] ∧
    hardcoded_extract_module exC6Trans default_min_length default_exclude_components none
      = [] ∧
    hardcoded_extract_module exC6TransNested default_min_length
      default_exclude_components none = [] := by
  obtain ⟨name, hmem, hname⟩ := h
  have hexcl : is_inside_excluded ancestors exclude_set = true := by
    unfold is_inside_excluded
    rw [List.any_eq_true]
    refine ⟨.jsxFrame name, hmem, ?_⟩
    unfold isExcludedFrame
    rcases hname with h1 | h2
    · have h1m : name ∈ exclude_set := by simpa using h1
      simp [h1m]
    · have h2m : shortName name ∈ exclude_set := by simpa using h2
      simp [h2m]
  refine ⟨⟨?_, ?_⟩, rfl, rfl, rfl⟩
  · unfold check_jsx_text
    simp [hexcl]
  · unfold check_jsx_literal
    simp [hexcl]

theorem hardcoded_excluded_component_guard_witness :
    (check_jsx_text [AncestorKind.jsxFrame "Trans"] default_exclude_components
        default_min_length none "Hello World" ⟨0, 7, 0, 18⟩ = none ∧
     check_jsx_literal [AncestorKind.jsxFrame "Trans"] default_exclude_components
        default_min_length none (.litStr "Hello World" exSpan0) exSpan0 = none) ∧
    hardcoded_extract_module exC6Div default_min_length default_exclude_components none =
      [⟨0, 5, 0, 16, "Hello World", "jsx_text"⟩] ∧
    hardcoded_extract_module exC6Trans default_min_length default_exclude_components none
      = [] ∧
    hardcoded_extract_module exC6TransNested default_min_length
      default_exclude_components none = [] :=
  hardcoded_excluded_component_guard [AncestorKind.jsxFrame "Trans"]
    default_exclude_components default_min_length none "Hello World" ⟨0, 7, 0, 18⟩
    (.litStr "Hello World" exSpan0) exSpan0
    ⟨"Trans", by decide, Or.inl (by decide)⟩

/-- C7 counterexample: the error value built for a parse failure is the parse-error
marker plus the underlying diagnostic message only; two extractions under different
requested dialects produce the identical error value, so the error does not carry the
dialect. -/
theorem extract_parse_error_no_dialect_cex :
    extract exFailOracle ⟨"(", "tsx", "translation", none⟩ =
        Except.error "parse error: Unexpected eof" ∧
    extract exFailOracle ⟨"(", "typescript", "translation", none⟩ =
        Except.error "parse error: Unexpected eof" ∧
    ("tsx" : String) ≠ "typescript" :=
  ⟨rfl, rfl, by decide⟩

/-- C7 amended: extraction returns an error exactly when the configured parser fails
on the input, the error carries the underlying diagnostic message behind a parse-error
marker but not the dialect, a parse failure is never reported as a success with an
empty item list, and parseable input never errors. -/
theorem extract_parse_failure_surfaced (oracle : ParseOracle) (p : ExtractParams)
    (msg : String) (m : Module) (items : List ScanItem) :
    (oracle (dialect_of_lang p.lang) p.source = .failed msg →
        extract oracle p = .error ("parse error: " ++ msg)) ∧
    (oracle (dialect_of_lang p.lang) p.source = .ok m →
        extract oracle p = .ok (extract_module m p.fallback_namespace p.range)) ∧
    (extract oracle p = .ok items →
        ∃ m2, oracle (dialect_of_lang p.lang) p.source = .ok m2 ∧
          items = extract_module m2 p.fallback_namespace p.range) := by
  refine ⟨?_, ?_, ?_⟩
  · intro hmsg
    unfold extract parse_module
    rw [hmsg]
  · intro hm
    unfold extract parse_module
    rw [hm]
  · intro hitems
    unfold extract parse_module at hitems
    cases hcase : oracle (dialect_of_lang p.lang) p.source with
    | ok m2 =>
      rw [hcase] at hitems
      simp at hitems
      exact ⟨m2, rfl, hitems.symm⟩
    | failed msg2 =>
      rw [hcase] at hitems
      simp at hitems

theorem extract_parse_failure_surfaced_witness :
    extract exFailOracle ⟨"x", "jsx", "fb", none⟩ =
      Except.error ("parse error: " ++ "Unexpected eof") :=
  (extract_parse_failure_surfaced exFailOracle ⟨"x", "jsx", "fb", none⟩
    "Unexpected eof" [] []).1 rfl

/-- C8: both extraction pipelines are deterministic: two invocations on equal inputs
return equal outputs, record for record. -/
theorem extract_deterministic (oracle : ParseOracle) (p q : ExtractParams)
    (hp hq : HardcodedParams) (h1 : p = q) (h2 : hp = hq) :
    extract oracle p = extract oracle q ∧
      hardcoded_extract oracle hp = hardcoded_extract oracle hq := by
  subst h1; subst h2; exact ⟨rfl, rfl⟩

theorem extract_deterministic_witness :
    extract exEmptyOracle ⟨"", "tsx", "fb", none⟩ =
        extract exEmptyOracle ⟨"", "tsx", "fb", none⟩ ∧
      hardcoded_extract exEmptyOracle ⟨"", "tsx", none, 2, ["Trans"]⟩ =
        hardcoded_extract exEmptyOracle ⟨"", "tsx", none, 2, ["Trans"]⟩ :=
  extract_deterministic exEmptyOracle ⟨"", "tsx", "fb", none⟩ ⟨"", "tsx", "fb", none⟩
    ⟨"", "tsx", none, 2, ["Trans"]⟩ ⟨"", "tsx", none, 2, ["Trans"]⟩ rfl rfl

/-- C9: when the first scope in size order containing the row has no namespace, the
context query answers with the caller fallback namespace and a true found-scope flag:
it does not fall through to a larger enclosing scope; by contrast resolve_namespace
skips a namespace-less inner scope and keeps searching outward, as the fixed
two-scope configuration shows. -/
theorem translation_context_inner_scope_no_fallthrough (m : Module) (row : Nat)
    (fallback_namespace : String) (s : NamespaceScope)
    (hfind : (collect_scopes_precise m (collect_consts m)).find? (scopeContains row)
      = some s)
    (hns : s.ns = none) :
    ((translation_context_at m row fallback_namespace).ns = fallback_namespace ∧
     (translation_context_at m row fallback_namespace).found_hook = true) ∧
    resolve_namespace exC9Scopes fallback_namespace "key" 2 =
      ("outer:key", "outer", false) := by
  refine ⟨?_, rfl⟩
  simp [translation_context_at, hfind, hns]

theorem translation_context_inner_scope_no_fallthrough_witness :
    (((translation_context_at exC9Module 0 "fb").ns = "fb" ∧
     (translation_context_at exC9Module 0 "fb").found_hook = true) ∧
    resolve_namespace exC9Scopes "fb" "key" 2 = ("outer:key", "outer", false)) :=
  translation_context_inner_scope_no_fallthrough exC9Module 0 "fb"
    ⟨none, some "t", 0, U32_MAX⟩ rfl rfl

/-- C10: for a string-literal or interpolation-free-template expression child passing
both guards and the range filter, a jsx_literal record is emitted exactly when the
trimmed value reaches the minimum length, and the emitted text is the original
untrimmed value at the inner expression span; a jsx_text child under the same guards
instead emits the whitespace-normalized text. -/
theorem jsx_literal_untrimmed_emission (ancestors : List AncestorKind)
    (exclude_set : List String) (min_length : Nat) (range : Option Range)
    (e : Expr) (csp : Span) (value : String) (sp2 : Span) (text : String)
    (hval : eval_literal e = some value)
    (hexcl : is_inside_excluded ancestors exclude_set = false)
    (ht : is_inside_t_call ancestors = false)
    (hr : in_range csp.startLine csp.endLine range = true)
    (hr2 : in_range sp2.startLine sp2.endLine range = true) :
    check_jsx_literal ancestors exclude_set min_length range e csp =
      (if min_length ≤ (trimStr value).utf8ByteSize then
        some { lnum := e.span.startLine, col := e.span.startCol,
               end_lnum := e.span.endLine, end_col := e.span.endCol,
               text := value, kind := "jsx_literal" }
      else none) ∧
    check_jsx_text ancestors exclude_set min_length range text sp2 =
      (if min_length ≤ (normalize_whitespace text).utf8ByteSize then
        some { lnum := sp2.startLine, col := sp2.startCol, end_lnum := sp2.endLine,
               end_col := sp2.endCol, text := normalize_whitespace text,
               kind := "jsx_text" }
      else none) := by
  constructor
  · unfold check_jsx_literal
    simp only [spanToLoc4, hr, hexcl, ht, hval, Bool.not_true, Bool.false_eq_true,
      if_false, ite_false, ite_true, Bool.not_false, if_true]
  · unfold check_jsx_text
    simp only [spanToLoc4, hr2, hexcl, ht, Bool.not_true, Bool.false_eq_true,
      if_false, ite_false, ite_true, Bool.not_false, if_true]

theorem jsx_literal_untrimmed_emission_witness :
    check_jsx_literal [] default_exclude_components 2 none
        (.litStr "  Hello   World " exSpan0) ⟨0, 5, 0, 25⟩ =
      (if 2 ≤ (trimStr "  Hello   World ").utf8ByteSize then
        some { lnum := (Expr.litStr "  Hello   World " exSpan0).span.startLine,
               col := (Expr.litStr "  Hello   World " exSpan0).span.startCol,
               end_lnum := (Expr.litStr "  Hello   World " exSpan0).span.endLine,
               end_col := (Expr.litStr "  Hello   World " exSpan0).span.endCol,
               text := "  Hello   World ", kind := "jsx_literal" }
      else none) ∧
    check_jsx_text [] default_exclude_components 2 none "  Hello   World "
        ⟨0, 5, 0, 25⟩ =
      (if 2 ≤ (normalize_whitespace "  Hello   World ").utf8ByteSize then
        some { lnum := 0, col := 5, end_lnum := 0, end_col := 25,
               text := normalize_whitespace "  Hello   World ", kind := "jsx_text" }
      else none) :=
  jsx_literal_untrimmed_emission [] default_exclude_components 2 none
    (.litStr "  Hello   World " exSpan0) ⟨0, 5, 0, 25⟩ "  Hello   World "
    ⟨0, 5, 0, 25⟩ "  Hello   World " rfl rfl rfl rfl rfl

end I18n
